import Mathlib

/-!
Verification of the WiChain LAN networking node, a shallow embedding of
`wichain-network/src/lib.rs`.  Pure Lean counterparts are given for the
wire-message type, the peer registry (a `HashMap<String, PeerEntry>` behind a
lock, modelled as an association list), the UDP receive-loop dispatch
(`recv_loop`), the TCP connection table and per-connection reader
(`handle_tcp_connection_reading`), the send paths (`send_message`,
`send_via_tcp`, `send_direct_block`) and the startup bind logic (`start`).
Socket I/O outcomes (bind success, TCP write success, observed source
addresses) are explicit parameters; time (`Instant`) is modelled as `Int`
seconds.
-/

namespace WiChain

/-- Socket address as observed on the UDP socket: an IP (kept as a string) and a port. -/
structure SocketAddr where
  ip : String
  port : Nat
  deriving DecidableEq, Repr

/-- Wire datagrams and TCP frames: the serde enum `NetworkMessage` from the source,
one constructor per variant, field for field (`from` is renamed `fromId`, a Lean keyword). -/
inductive NetworkMessage where
  | Peer (id aliasName pubkey : String)
  | Ping (id aliasName : String)
  | Pong (id aliasName : String)
  | Block (block_json : String)
  | DirectBlock (fromId toId payload_json : String)
  | TcpConnectionRequest (fromId from_alias : String) (tcp_port : Nat)
  | TcpConnectionResponse (fromId toId : String) (accepted : Bool) (tcp_port : Nat)
  | TcpKeepalive (fromId : String)
  | TcpConnectionTest (fromId : String) (timestamp : Nat)
  | TcpConnectionTestResponse (fromId toId : String) (timestamp response_time_ms : Nat)
  | TcpHandshake (fromId from_alias pubkey : String)
  deriving DecidableEq, Repr

/-- `PEER_STALE_SECS` from the source (seconds, as `Int` time). -/
def PEER_STALE_SECS : Int := 30

/-- `TCP_PORT_OFFSET` from the source: TCP port = UDP port + offset. -/
def TCP_PORT_OFFSET : Nat := 1000

/-- `PeerInfo` from the source (the record exposed to the UI). -/
structure PeerInfo where
  id : String
  aliasName : String
  pubkey : String
  last_seen_ms : Nat
  connection_type : String
  tcp_port : Option Nat
  deriving DecidableEq, Repr

/-- `PeerEntry` from the source: registry row behind the `peers` lock. -/
structure PeerEntry where
  info : PeerInfo
  last_seen : Int
  last_addr : SocketAddr
  tcp_port : Option Nat
  deriving DecidableEq, Repr

/-- Association-list lookup, modelling `HashMap::get`. -/
def assocGet {α : Type} : List (String × α) → String → Option α
  | [], _ => none
  | kv :: rest, k => if kv.1 = k then some kv.2 else assocGet rest k

/-- Association-list removal of a key, modelling `HashMap::remove`. -/
def assocRemove {α : Type} : List (String × α) → String → List (String × α)
  | [], _ => []
  | kv :: rest, k => if kv.1 = k then assocRemove rest k else kv :: assocRemove rest k

/-- Association-list insert-or-replace, modelling `HashMap::insert`. -/
def assocInsert {α : Type} (m : List (String × α)) (k : String) (v : α) : List (String × α) :=
  (k, v) :: assocRemove m k

/-- In-place update of the value under a key when present, modelling `HashMap::get_mut`. -/
def assocUpdate {α : Type} (m : List (String × α)) (k : String) (f : α → α) : List (String × α) :=
  m.map (fun kv => if kv.1 = k then (kv.1, f kv.2) else kv)

/-- The keys of an association list. -/
def assocKeys {α : Type} (m : List (String × α)) : List String :=
  m.map (fun kv => kv.1)

/-- The peer registry: `HashMap<String, PeerEntry>` as an association list. -/
abbrev PeerMap := List (String × PeerEntry)

/-- The entry produced by the body of `update_peer_with_tcp_port`: `entry(id).or_insert_with`
with the default row, then the unconditional field updates and the optional tcp port update. -/
def upsertEntry (old : Option PeerEntry) (id aliasName pubkey : String) (addr : SocketAddr)
    (tcp_port : Option Nat) (now : Int) : PeerEntry :=
  let e0 : PeerEntry :=
    match old with
    | some e => e
    | none =>
        { info := { id := id, aliasName := aliasName, pubkey := pubkey, last_seen_ms := 0,
                    connection_type := "UDP", tcp_port := none },
          last_seen := now, last_addr := addr, tcp_port := none }
  { info := { id := e0.info.id, aliasName := aliasName, pubkey := pubkey, last_seen_ms := 0,
              connection_type := e0.info.connection_type,
              tcp_port := match tcp_port with | some p => some p | none => e0.info.tcp_port },
    last_seen := now, last_addr := addr,
    tcp_port := match tcp_port with | some p => some p | none => e0.tcp_port }

/-- `update_peer_with_tcp_port` from the source. -/
def update_peer_with_tcp_port (peers : PeerMap) (id aliasName pubkey : String)
    (addr : SocketAddr) (tcp_port : Option Nat) (now : Int) : PeerMap :=
  assocInsert peers id (upsertEntry (assocGet peers id) id aliasName pubkey addr tcp_port now)

/-- `update_peer` from the source: the wrapper passing `None` for the tcp port. -/
def update_peer (peers : PeerMap) (id aliasName pubkey : String) (addr : SocketAddr)
    (now : Int) : PeerMap :=
  update_peer_with_tcp_port peers id aliasName pubkey addr none now

/-- `maybe_gc_stale` from the source: retain rows with `last_seen >= now - PEER_STALE_SECS`. -/
def maybe_gc_stale (peers : PeerMap) (now : Int) : PeerMap :=
  peers.filter (fun kv => decide (now - PEER_STALE_SECS ≤ kv.2.last_seen))

/-- `NetworkNode::list_peers` from the source: the infos of all registry rows. -/
def list_peers (peers : PeerMap) : List PeerInfo :=
  peers.map (fun kv => kv.2.info)

/-- `NetworkNode::update_peer_connection_type` from the source. -/
def update_peer_connection_type (peers : PeerMap) (peer_id : String) (has_tcp : Bool) : PeerMap :=
  assocUpdate peers peer_id (fun e =>
    { e with info := { e.info with connection_type := if has_tcp then "TCP" else "UDP" } })

/-- Registry states reachable from the empty map through the operations that mutate the
`peers` table in the source: `update_peer_with_tcp_port` (and its wrapper `update_peer`),
`update_peer_connection_type`, and the `maybe_gc_stale` sweep. -/
inductive RegistryReachable : PeerMap → Prop where
  | empty : RegistryReachable []
  | upsert (m : PeerMap) (id aliasName pubkey : String) (addr : SocketAddr)
      (tp : Option Nat) (now : Int) :
      RegistryReachable m →
      RegistryReachable (update_peer_with_tcp_port m id aliasName pubkey addr tp now)
  | conn_type (m : PeerMap) (peer_id : String) (has_tcp : Bool) :
      RegistryReachable m →
      RegistryReachable (update_peer_connection_type m peer_id has_tcp)
  | gc (m : PeerMap) (now : Int) :
      RegistryReachable m →
      RegistryReachable (maybe_gc_stale m now)

/-- `NetworkNode::new` computes the TCP listener port from the configured UDP port. -/
def node_tcp_port (port : Nat) : Nat :=
  port + TCP_PORT_OFFSET

/-- The observable effects of one iteration of `recv_loop` on a decoded datagram:
the registry afterwards (dispatch update followed by the `maybe_gc_stale` sweep),
the UDP datagrams sent in reply, the messages forwarded to the application channel
(`tx.send`), and the TCP connect attempts (ip, port) the iteration launches.  The
outbound handshake write and connection-table insert that follow a successful TCP
connect are I/O dependent and are not modelled here. -/
structure RecvEffect where
  peers : PeerMap
  sent : List (NetworkMessage × SocketAddr)
  forwarded : List NetworkMessage
  connects : List (String × Nat)
  deriving Repr

/-- One iteration of `recv_loop` from the source: dispatch on the decoded message
(registry updates and replies, with the pong addressed to the observed source
address `src`), then forward the message to the application channel, then sweep. -/
def recv_step (myId myAlias : String) (peers : PeerMap) (src : SocketAddr)
    (msg : NetworkMessage) (now : Int) : RecvEffect :=
  let peers1 :=
    match msg with
    | .Peer id aliasName pubkey => update_peer peers id aliasName pubkey src now
    | .Ping id aliasName => update_peer peers id aliasName id src now
    | .Pong id aliasName => update_peer peers id aliasName id src now
    | .DirectBlock fromId _ _ => update_peer peers fromId fromId fromId src now
    | .TcpConnectionRequest fromId from_alias tcp_port =>
        update_peer_with_tcp_port peers fromId from_alias fromId src (some tcp_port) now
    | .TcpConnectionResponse fromId _ _ tcp_port =>
        update_peer_with_tcp_port peers fromId fromId fromId src (some tcp_port) now
    | .TcpKeepalive fromId => update_peer peers fromId fromId fromId src now
    | .TcpConnectionTest fromId _ => update_peer peers fromId fromId fromId src now
    | .TcpConnectionTestResponse fromId _ _ _ => update_peer peers fromId fromId fromId src now
    | .TcpHandshake fromId from_alias pubkey => update_peer peers fromId from_alias pubkey src now
    | .Block _ => peers
  let sent : List (NetworkMessage × SocketAddr) :=
    match msg with
    | .Ping _ _ => [(.Pong myId myAlias, src)]
    | .TcpConnectionRequest fromId _ _ =>
        [(.TcpConnectionResponse myId fromId true (60000 + TCP_PORT_OFFSET), src)]
    | _ => []
  let connects : List (String × Nat) :=
    match msg with
    | .TcpConnectionResponse _ _ accepted tcp_port =>
        if accepted then [(src.ip, tcp_port)] else []
    | _ => []
  { peers := maybe_gc_stale peers1 now,
    sent := sent,
    forwarded := [msg],
    connects := connects }

/-- The stored pubkey of a registry row, as a view on `list_peers` data. -/
def peer_pubkey (peers : PeerMap) (id : String) : Option String :=
  (assocGet peers id).map (fun e => e.info.pubkey)

/-- The stored aliasName of a registry row, as a view on `list_peers` data. -/
def peer_alias (peers : PeerMap) (id : String) : Option String :=
  (assocGet peers id).map (fun e => e.info.aliasName)

/-- `TcpConnection` from the source (the stream handle itself is not modelled). -/
structure TcpConnection where
  peer_id : String
  last_activity : Int
  is_connected : Bool
  message_count : Nat
  last_test_time : Option Int
  handshake_completed : Bool
  deriving DecidableEq, Repr

/-- The connection table of `TcpConnectionManager`: `HashMap<String, TcpConnection>`. -/
abbrev ConnTable := List (String × TcpConnection)

/-- Does the frame match the `TcpHandshake` arm of the reader match. -/
def isTcpHandshake : NetworkMessage → Bool
  | .TcpHandshake _ _ _ => true
  | _ => false

/-- The local state of one run of `handle_tcp_connection_reading`: the two local
variables of the reader, the shared connection table, and the frames forwarded to
the application channel so far. -/
structure ReaderState where
  peerId : Option String
  handshakeCompleted : Bool
  conns : ConnTable
  forwarded : List NetworkMessage
  deriving DecidableEq, Repr

/-- The reader state at connection accept time. -/
def initReaderState (conns0 : ConnTable) : ReaderState :=
  { peerId := none, handshakeCompleted := false, conns := conns0, forwarded := [] }

/-- Processing of one decoded frame inside the read loop of
`handle_tcp_connection_reading`: a first `TcpHandshake` records the peer id
locally; any other frame is forwarded and bumps the table entry of the peer (when
one exists) if the handshake already happened, and is discarded otherwise. -/
def readFrame (now : Int) (st : ReaderState) (msg : NetworkMessage) : ReaderState :=
  match msg with
  | .TcpHandshake fromId _ _ =>
      if st.handshakeCompleted then st
      else { st with peerId := some fromId, handshakeCompleted := true }
  | _ =>
      match st.peerId with
      | some pid =>
          { st with
            forwarded := st.forwarded ++ [msg],
            conns := assocUpdate st.conns pid (fun c =>
              { c with last_activity := now, message_count := c.message_count + 1 }) }
      | none => st

/-- The code after the read loop of `handle_tcp_connection_reading`: when a peer id
was learnt, store a fresh connection if the handshake completed, then remove the
entry under that peer id. -/
def connectionCleanup (now : Int) (st : ReaderState) : ConnTable :=
  let t1 : ConnTable :=
    match st.peerId with
    | some pid =>
        if st.handshakeCompleted then
          assocInsert st.conns pid
            { peer_id := pid, last_activity := now, is_connected := true,
              message_count := 0, last_test_time := none, handshake_completed := true }
        else st.conns
    | none => st.conns
  match st.peerId with
  | some pid => assocRemove t1 pid
  | none => t1

/-- A whole run of `handle_tcp_connection_reading` on an inbound connection, over the
list of decoded frames the connection delivers before EOF or a read error: the
connection table after the final cleanup, and the frames forwarded to the channel. -/
def handle_tcp_connection_reading (now : Int) (frames : List NetworkMessage)
    (conns0 : ConnTable) : ConnTable × List NetworkMessage :=
  let st := frames.foldl (readFrame now) (initReaderState conns0)
  (connectionCleanup now st, st.forwarded)

/-- Outcome of the timed `write_all` plus `flush` of `send_via_tcp`: success, a write
or flush I/O error, or the two-second timeout. -/
inductive StreamWriteOutcome where
  | ok
  | ioError
  | timedOut
  deriving DecidableEq, Repr

/-- The I/O-dependent environment of one `send_message` call: whether a connected
session for the peer exists after the best-effort upgrade attempt (`has_tcp_connection`,
an entry with `is_connected`), how the timed stream write turns out, and the registry
row address for the peer (`peers.get(peer_id).map(last_addr)`). -/
structure SendEnv where
  hasConn : Bool
  write : StreamWriteOutcome
  regAddr : Option SocketAddr
  deriving DecidableEq, Repr

/-- A payload-carrying emission of the send paths: a framed record written to the
stream session, or one UDP datagram to an address. -/
inductive SendEffect where
  | streamFrame (msg : NetworkMessage)
  | datagram (msg : NetworkMessage) (dest : SocketAddr)
  deriving DecidableEq, Repr

/-- `NetworkNode::has_tcp_connection` from the source. -/
def has_tcp_connection (env : SendEnv) : Bool :=
  env.hasConn

/-- `NetworkNode::send_via_tcp` from the source: with a connected session, wrap the
payload as a `DirectBlock` frame and write it with the two-second timeout; errors
are the anyhow messages of the source. -/
def send_via_tcp (selfId peer_id payload : String) (env : SendEnv) :
    Except String (List SendEffect) :=
  if env.hasConn then
    match env.write with
    | .ok => .ok [.streamFrame (.DirectBlock selfId peer_id payload)]
    | .ioError => .error "TCP write error"
    | .timedOut => .error "TCP write timeout"
  else .error ("No TCP connection to peer " ++ peer_id)

/-- `NetworkNode::send_direct_block` from the source: one UDP datagram carrying the
`DirectBlock` to the registry row address when one exists, else the peer-not-found
error. -/
def send_direct_block (selfId peer_id payload : String) (env : SendEnv) :
    Except String (List SendEffect) :=
  match env.regAddr with
  | some a => .ok [.datagram (.DirectBlock selfId peer_id payload) a]
  | none => .error ("Peer not found: " ++ peer_id)

/-- `NetworkNode::send_message` from the source: after the best-effort upgrade attempt
(absorbed into `env.hasConn`), try the stream when a session exists and return on
success; otherwise fall back to `send_direct_block`. -/
def send_message (selfId peer_id payload : String) (env : SendEnv) :
    Except String (List SendEffect) :=
  if has_tcp_connection env then
    match send_via_tcp selfId peer_id payload env with
    | .ok effs => .ok effs
    | .error _ => send_direct_block selfId peer_id payload env
  else send_direct_block selfId peer_id payload env

/-- What the caller of `NetworkNode::start` can observe: the Rust function returns
the unit value on every path, so `callerError` (the error component of the returned
value) is built `none` in each branch below, exactly as the source returns `()`;
`spawned` records whether the receive loop, broadcaster and TCP listener tasks were
launched, which happens only when one of the two binds succeeds. -/
structure StartResult where
  callerError : Option String
  spawned : Bool
  deriving DecidableEq, Repr

/-- `NetworkNode::start` from the source: bind the wildcard address, fall back to
loopback, and on double failure log and return (surfacing nothing). -/
def start (bindWildcardOk bindLoopbackOk : Bool) : StartResult :=
  if bindWildcardOk then { callerError := none, spawned := true }
  else if bindLoopbackOk then { callerError := none, spawned := true }
  else { callerError := none, spawned := false }

/-- Lookup after insert-or-replace at the same key. -/
theorem assocGet_assocInsert_self {α : Type} (m : List (String × α)) (k : String) (v : α) :
    assocGet (assocInsert m k v) k = some v := by
  simp [assocInsert, assocGet]

/-- Removal really removes every binding of the key. -/
theorem assocGet_assocRemove_self {α : Type} (m : List (String × α)) (k : String) :
    assocGet (assocRemove m k) k = none := by
  induction m with
  | nil => rfl
  | cons kv rest ih =>
      by_cases h : kv.1 = k
      · simpa [assocRemove, h] using ih
      · simp [assocRemove, assocGet, h, ih]

/-- Removal leaves other keys untouched. -/
theorem assocGet_assocRemove_ne {α : Type} (m : List (String × α)) (k k2 : String)
    (h : k2 ≠ k) :
    assocGet (assocRemove m k) k2 = assocGet m k2 := by
  induction m with
  | nil => rfl
  | cons kv rest ih =>
      by_cases hk : kv.1 = k
      · have hne : ¬ kv.1 = k2 := by rw [hk]; exact fun hh => h hh.symm
        have h1 : assocRemove (kv :: rest) k = assocRemove rest k := by
          simp [assocRemove, hk]
        rw [h1, ih]
        simp [assocGet, hne]
      · have h1 : assocRemove (kv :: rest) k = kv :: assocRemove rest k := by
          simp [assocRemove, hk]
        by_cases hk2 : kv.1 = k2
        · rw [h1]
          simp [assocGet, hk2]
        · rw [h1]
          simp [assocGet, hk2, ih]

/-- Insert-or-replace leaves other keys untouched. -/
theorem assocGet_assocInsert_ne {α : Type} (m : List (String × α)) (k k2 : String) (v : α)
    (h : k2 ≠ k) :
    assocGet (assocInsert m k v) k2 = assocGet m k2 := by
  have hne : ¬ k = k2 := fun hh => h hh.symm
  simp only [assocInsert, assocGet, hne, if_false]
  exact assocGet_assocRemove_ne m k k2 h

/-- A lookup misses exactly when the key is absent. -/
theorem assocGet_eq_none_iff {α : Type} (m : List (String × α)) (k : String) :
    assocGet m k = none ↔ k ∉ assocKeys m := by
  induction m with
  | nil => simp [assocGet, assocKeys]
  | cons kv rest ih =>
      by_cases h : kv.1 = k
      · simp [assocGet, assocKeys, h]
      · have hne : ¬ k = kv.1 := fun hh => h hh.symm
        simp [assocGet, assocKeys, h, hne, ih]

/-- In-place value update does not change the key list. -/
theorem assocKeys_assocUpdate {α : Type} (m : List (String × α)) (k : String) (f : α → α) :
    assocKeys (assocUpdate m k f) = assocKeys m := by
  induction m with
  | nil => rfl
  | cons kv rest ih =>
      by_cases h : kv.1 = k
      · simpa [assocUpdate, assocKeys, h] using ih
      · simpa [assocUpdate, assocKeys, h] using ih

/-- A frame other than a handshake, arriving while no handshake has been seen,
leaves the reader state untouched: it is logged and discarded. -/
theorem readFrame_not_handshake_no_peer (now : Int) (st : ReaderState) (m : NetworkMessage)
    (hp : st.peerId = none) (hm : isTcpHandshake m = false) :
    readFrame now st m = st := by
  cases m <;> simp [isTcpHandshake] at hm ⊢ <;> simp [readFrame, hp]

/-- A run of non-handshake frames before any handshake leaves the reader state untouched. -/
theorem foldl_readFrame_no_peer (now : Int) (frames : List NetworkMessage) (st : ReaderState)
    (hp : st.peerId = none) (hf : ∀ m ∈ frames, isTcpHandshake m = false) :
    frames.foldl (readFrame now) st = st := by
  induction frames with
  | nil => rfl
  | cons a l ih =>
      rw [List.foldl_cons,
        readFrame_not_handshake_no_peer now st a hp (hf a (List.mem_cons_self a l))]
      exact ih (fun m hm => hf m (List.mem_cons_of_mem a hm))

/-- No frame processed inside the read loop adds or removes a connection-table key. -/
theorem assocKeys_readFrame (now : Int) (st : ReaderState) (m : NetworkMessage) :
    assocKeys (readFrame now st m).conns = assocKeys st.conns := by
  cases m <;> simp only [readFrame] <;>
    first
      | (split <;> rfl)
      | (cases st.peerId <;> simp [assocKeys_assocUpdate])

/-- The whole read loop preserves the connection-table key list. -/
theorem assocKeys_foldl_readFrame (now : Int) (frames : List NetworkMessage) (st : ReaderState) :
    assocKeys ((frames.foldl (readFrame now) st).conns) = assocKeys st.conns := by
  induction frames generalizing st with
  | nil => rfl
  | cons a l ih =>
      rw [List.foldl_cons, ih]
      exact assocKeys_readFrame now st a

/-- The post-loop cleanup cannot make a lookup succeed on a key that was absent. -/
theorem assocGet_connectionCleanup_none (now : Int) (st : ReaderState) (k : String)
    (h : k ∉ assocKeys st.conns) :
    assocGet (connectionCleanup now st) k = none := by
  unfold connectionCleanup
  cases hp : st.peerId with
  | none => simpa using (assocGet_eq_none_iff st.conns k).mpr h
  | some pid =>
      by_cases hk : k = pid
      · subst hk
        simp only []
        exact assocGet_assocRemove_self _ _
      · rw [assocGet_assocRemove_ne _ _ _ hk]
        by_cases hc : st.handshakeCompleted
        · simp only [hc, if_true]
          rw [assocGet_assocInsert_ne _ _ _ _ hk]
          exact (assocGet_eq_none_iff st.conns k).mpr h
        · simp only [hc, if_false]
          exact (assocGet_eq_none_iff st.conns k).mpr h

/-- A fresh upsert row survives the sweep keyed under its id. -/
theorem assocGet_gc_assocInsert (m : PeerMap) (k : String) (v : PeerEntry) (now : Int)
    (h : now - PEER_STALE_SECS ≤ v.last_seen) :
    assocGet (maybe_gc_stale (assocInsert m k v) now) k = some v := by
  simp only [maybe_gc_stale, assocInsert, List.filter_cons, decide_eq_true_eq]
  rw [if_pos h]
  simp [assocGet]

/-- After an upsert and the sweep, the stored pubkey is the upsert argument. -/
theorem peer_pubkey_upsert (peers : PeerMap) (id aliasName pubkey : String)
    (addr : SocketAddr) (tp : Option Nat) (now : Int) :
    peer_pubkey (maybe_gc_stale (update_peer_with_tcp_port peers id aliasName pubkey addr tp now) now)
      id = some pubkey := by
  have hs : now - PEER_STALE_SECS ≤
      (upsertEntry (assocGet peers id) id aliasName pubkey addr tp now).last_seen := by
    show now - PEER_STALE_SECS ≤ now
    unfold PEER_STALE_SECS
    omega
  unfold peer_pubkey update_peer_with_tcp_port
  rw [assocGet_gc_assocInsert _ _ _ _ hs]
  rfl

/-- After an upsert and the sweep, the stored aliasName is the upsert argument. -/
theorem peer_alias_upsert (peers : PeerMap) (id aliasName pubkey : String)
    (addr : SocketAddr) (tp : Option Nat) (now : Int) :
    peer_alias (maybe_gc_stale (update_peer_with_tcp_port peers id aliasName pubkey addr tp now) now)
      id = some aliasName := by
  have hs : now - PEER_STALE_SECS ≤
      (upsertEntry (assocGet peers id) id aliasName pubkey addr tp now).last_seen := by
    show now - PEER_STALE_SECS ≤ now
    unfold PEER_STALE_SECS
    omega
  unfold peer_alias update_peer_with_tcp_port
  rw [assocGet_gc_assocInsert _ _ _ _ hs]
  rfl

/-- Entries of the list after a key removal were entries before it. -/
theorem mem_assocRemove {α : Type} (m : List (String × α)) (k : String) (kv : String × α)
    (h : kv ∈ assocRemove m k) : kv ∈ m := by
  induction m with
  | nil => exact absurd h (List.not_mem_nil kv)
  | cons a rest ih =>
      by_cases ha : a.1 = k
      · rw [show assocRemove (a :: rest) k = assocRemove rest k from by simp [assocRemove, ha]] at h
        exact List.mem_cons_of_mem a (ih h)
      · rw [show assocRemove (a :: rest) k = a :: assocRemove rest k from by
          simp [assocRemove, ha]] at h
        rcases List.mem_cons.mp h with h1 | h2
        · rw [h1]
          exact List.mem_cons_self a rest
        · exact List.mem_cons_of_mem a (ih h2)

/-- Every row of a reachable registry has `last_seen_ms` equal to zero: the upsert
writes zero for both fresh and existing rows, and the other operations never touch
the field. -/
theorem registry_last_seen_ms_zero (m : PeerMap) (h : RegistryReachable m) :
    ∀ kv ∈ m, kv.2.info.last_seen_ms = 0 := by
  induction h with
  | empty =>
      intro kv hkv
      exact absurd hkv (List.not_mem_nil kv)
  | upsert m id aliasName pubkey addr tp now hm ih =>
      intro kv hkv
      unfold update_peer_with_tcp_port assocInsert at hkv
      rcases List.mem_cons.mp hkv with rfl | h2
      · rfl
      · exact ih kv (mem_assocRemove m id kv h2)
  | conn_type m peer_id has_tcp hm ih =>
      intro kv hkv
      unfold update_peer_connection_type assocUpdate at hkv
      obtain ⟨kv0, hkv0, heq⟩ := List.mem_map.mp hkv
      rw [← heq]
      by_cases hx : kv0.1 = peer_id
      · simp only [if_pos hx]
        exact ih kv0 hkv0
      · simp only [if_neg hx]
        exact ih kv0 hkv0
  | gc m now hm ih =>
      intro kv hkv
      exact ih kv (List.mem_filter.mp hkv).1

/-- C1: `send_message(peer, payload)` selects the transport exactly as claimed: with a
live connected session and a successful timed stream write it returns success having
emitted the payload as one `DirectBlock` frame on the stream and no datagram; when no
session exists or the stream write fails, and a registry row with a last known address
exists, it emits exactly one `DirectBlock` datagram to that address and returns
success; and when neither a session that delivered the frame nor a registry row
exists, it fails with the peer-not-found error. -/
theorem C1_send_message_transport_selection (selfId peer_id payload : String) (env : SendEnv) :
    (env.hasConn = true → env.write = StreamWriteOutcome.ok →
        send_message selfId peer_id payload env =
          Except.ok [SendEffect.streamFrame (NetworkMessage.DirectBlock selfId peer_id payload)]) ∧
    (∀ a : SocketAddr, (env.hasConn = false ∨ env.write ≠ StreamWriteOutcome.ok) →
        env.regAddr = some a →
        send_message selfId peer_id payload env =
          Except.ok [SendEffect.datagram (NetworkMessage.DirectBlock selfId peer_id payload) a]) ∧
    ((env.hasConn = false ∨ env.write ≠ StreamWriteOutcome.ok) → env.regAddr = none →
        send_message selfId peer_id payload env =
          Except.error ("Peer not found: " ++ peer_id)) := by
  obtain ⟨hc, w, ra⟩ := env
  refine ⟨?_, ?_, ?_⟩ <;>
    cases hc <;> cases w <;> cases ra <;> intros <;>
      simp_all [send_message, send_via_tcp, send_direct_block, has_tcp_connection]

/-- C1 witness: the three branches at concrete inputs. -/
theorem C1_witness :
    send_message "A" "B" "hi" { hasConn := true, write := .ok, regAddr := none } =
      Except.ok [SendEffect.streamFrame (NetworkMessage.DirectBlock "A" "B" "hi")] ∧
    send_message "A" "B" "hi"
        { hasConn := false, write := .ok, regAddr := some ⟨"10.0.0.9", 60000⟩ } =
      Except.ok [SendEffect.datagram (NetworkMessage.DirectBlock "A" "B" "hi")
        ⟨"10.0.0.9", 60000⟩] ∧
    send_message "A" "B" "hi" { hasConn := false, write := .timedOut, regAddr := none } =
      Except.error ("Peer not found: " ++ "B") :=
  ⟨(C1_send_message_transport_selection "A" "B" "hi"
      { hasConn := true, write := .ok, regAddr := none }).1 rfl rfl,
   (C1_send_message_transport_selection "A" "B" "hi"
      { hasConn := false, write := .ok, regAddr := some ⟨"10.0.0.9", 60000⟩ }).2.1
      ⟨"10.0.0.9", 60000⟩ (Or.inl rfl) rfl,
   (C1_send_message_transport_selection "A" "B" "hi"
      { hasConn := false, write := .timedOut, regAddr := none }).2.2 (Or.inl rfl) rfl⟩

/-- C2 (code bug): on an inbound connection delivering a `TcpHandshake` for peer `p1`
followed by a `DirectBlock`, the handshake is recorded only in reader-local
variables: no session for `p1` is in the connection table right after the handshake,
nor after the next frame (so no `message_count` is bumped), even though the frame is
forwarded; the insert happens only after the loop exits and is immediately removed,
so the whole run ends with an empty table. -/
theorem C2_inbound_session_never_registered :
    (readFrame 0 (initReaderState [])
        (NetworkMessage.TcpHandshake "p1" "alice" "pk1")).handshakeCompleted = true ∧
    assocGet (readFrame 0 (initReaderState [])
        (NetworkMessage.TcpHandshake "p1" "alice" "pk1")).conns "p1" = none ∧
    (readFrame 0 (readFrame 0 (initReaderState []) (NetworkMessage.TcpHandshake "p1" "alice" "pk1"))
        (NetworkMessage.DirectBlock "p1" "me" "hello")).forwarded =
      [NetworkMessage.DirectBlock "p1" "me" "hello"] ∧
    assocGet (readFrame 0 (readFrame 0 (initReaderState [])
        (NetworkMessage.TcpHandshake "p1" "alice" "pk1"))
        (NetworkMessage.DirectBlock "p1" "me" "hello")).conns "p1" = none ∧
    handle_tcp_connection_reading 0
      [NetworkMessage.TcpHandshake "p1" "alice" "pk1",
       NetworkMessage.DirectBlock "p1" "me" "hello"] [] =
      ([], [NetworkMessage.DirectBlock "p1" "me" "hello"]) := by
  decide

/-- C3 counterexample: with both the wildcard and the loopback bind failing, `start`
returns no error to its caller (the claim says the bind failure is surfaced), and no
background task is spawned. -/
theorem C3_counterexample :
    (start false false).callerError = none ∧ (start false false).spawned = false := by
  decide

/-- C3 amended: the bind failure is never surfaced to the caller of `start` - the
function returns the unit value with no error component in every case - and on double
bind failure it merely returns early without spawning the receive loop, broadcaster
or TCP listener, so the node never becomes functional. -/
theorem C3_bind_failure_not_surfaced :
    ∀ bindWildcardOk bindLoopbackOk : Bool,
      (start bindWildcardOk bindLoopbackOk).callerError = none ∧
      ((start bindWildcardOk bindLoopbackOk).spawned = false ↔
        (bindWildcardOk = false ∧ bindLoopbackOk = false)) := by
  decide

/-- C4: on an inbound stream connection, every frame arriving before a handshake is
discarded without any effect - no forward to the application channel and no state
change; the run never adds a key to the connection table (so such a connection is
never registered as a session), and after the final cleanup any peer id absent from
the initial table is still absent, so the connection is never selectable for sending. -/
theorem C4_pre_handshake_frames_discarded (pre rest : List NetworkMessage)
    (conns0 : ConnTable) (now : Int)
    (hpre : ∀ m ∈ pre, isTcpHandshake m = false) :
    (pre.foldl (readFrame now) (initReaderState conns0) = initReaderState conns0) ∧
    (assocKeys (((pre ++ rest).foldl (readFrame now) (initReaderState conns0)).conns) =
      assocKeys conns0) ∧
    (∀ k, k ∉ assocKeys conns0 →
      assocGet (handle_tcp_connection_reading now (pre ++ rest) conns0).1 k = none) := by
  refine ⟨foldl_readFrame_no_peer now pre _ rfl hpre, ?_, ?_⟩
  · exact assocKeys_foldl_readFrame now (pre ++ rest) (initReaderState conns0)
  · intro k hk
    show assocGet (connectionCleanup now
      ((pre ++ rest).foldl (readFrame now) (initReaderState conns0))) k = none
    apply assocGet_connectionCleanup_none
    rw [assocKeys_foldl_readFrame]
    exact hk

/-- C4 witness: a connection whose first frame is a `DirectBlock`, followed by a late
handshake, at concrete inputs. -/
theorem C4_witness :
    ([NetworkMessage.DirectBlock "q" "me" "x"].foldl (readFrame 0) (initReaderState []) =
      initReaderState []) ∧
    (assocKeys ((([NetworkMessage.DirectBlock "q" "me" "x"] ++
        [NetworkMessage.TcpHandshake "q" "qa" "qp"]).foldl (readFrame 0)
        (initReaderState [])).conns) = assocKeys ([] : ConnTable)) ∧
    assocGet (handle_tcp_connection_reading 0
        ([NetworkMessage.DirectBlock "q" "me" "x"] ++ [NetworkMessage.TcpHandshake "q" "qa" "qp"])
        []).1 "q" = none := by
  have h := C4_pre_handshake_frames_discarded [NetworkMessage.DirectBlock "q" "me" "x"]
    [NetworkMessage.TcpHandshake "q" "qa" "qp"] [] 0 (by decide)
  exact ⟨h.1, h.2.1, h.2.2 "q" (by decide)⟩

/-- C5: a `Ping` datagram received from source address `src` makes the receive loop
send exactly one `Pong`, addressed exactly to `src` (the observed socket source
address, not the broadcast address). -/
theorem C5_ping_one_unicast_pong (myId myAlias id aliasName : String) (peers : PeerMap)
    (src : SocketAddr) (now : Int) :
    (recv_step myId myAlias peers src (NetworkMessage.Ping id aliasName) now).sent =
      [(NetworkMessage.Pong myId myAlias, src)] := rfl

/-- C6: after an eviction sweep at time `now`, a peer id all of whose registry rows
were last seen strictly earlier than the stale window is absent from `list_peers`,
and every row last seen inside the window is retained. -/
theorem C6_stale_eviction (m : PeerMap) (now : Int) (pid : String)
    (hcoh : ∀ kv ∈ m, kv.2.info.id = kv.1) :
    ((∀ kv ∈ m, kv.1 = pid → kv.2.last_seen < now - PEER_STALE_SECS) →
        ∀ info ∈ list_peers (maybe_gc_stale m now), info.id ≠ pid) ∧
    (∀ kv ∈ m, now - PEER_STALE_SECS ≤ kv.2.last_seen → kv ∈ maybe_gc_stale m now) := by
  constructor
  · intro hstale info hinfo
    unfold list_peers at hinfo
    obtain ⟨kv, hkv, hinfoeq⟩ := List.mem_map.mp hinfo
    unfold maybe_gc_stale at hkv
    obtain ⟨hm, hfresh⟩ := List.mem_filter.mp hkv
    intro hid
    have h1 : kv.1 = pid := by
      rw [← hcoh kv hm, show kv.2.info = info from hinfoeq]
      exact hid
    have h2 := hstale kv hm h1
    have h3 : now - PEER_STALE_SECS ≤ kv.2.last_seen := of_decide_eq_true hfresh
    omega
  · intro kv hm hfresh
    unfold maybe_gc_stale
    exact List.mem_filter.mpr ⟨hm, decide_eq_true hfresh⟩

/-- Concrete stale registry row for the C6 witness. -/
def peerEntryStale : PeerEntry :=
  { info := { id := "p1", aliasName := "a1", pubkey := "k1", last_seen_ms := 0,
              connection_type := "UDP", tcp_port := none },
    last_seen := 40, last_addr := ⟨"10.0.0.1", 60000⟩, tcp_port := none }

/-- Concrete fresh registry row for the C6 witness. -/
def peerEntryFresh : PeerEntry :=
  { info := { id := "p2", aliasName := "a2", pubkey := "k2", last_seen_ms := 0,
              connection_type := "UDP", tcp_port := none },
    last_seen := 95, last_addr := ⟨"10.0.0.2", 60000⟩, tcp_port := none }

/-- Concrete registry for the C6 witness: one stale row, one fresh row. -/
def registryW : PeerMap := [("p1", peerEntryStale), ("p2", peerEntryFresh)]

/-- C6 witness: at time 100 with a 30-second window, the sweep drops the row last
seen at 40 and keeps the row last seen at 95. -/
theorem C6_witness :
    peerEntryFresh.info.id ≠ "p1" ∧ ("p2", peerEntryFresh) ∈ maybe_gc_stale registryW 100 := by
  have h := C6_stale_eviction registryW 100 "p1" (by decide)
  exact ⟨h.1 (by decide) peerEntryFresh.info (by decide),
         h.2 ("p2", peerEntryFresh) (by decide) (by decide)⟩

/-- C7 counterexample: a received legacy `Block` datagram is not invisible to the
application layer - the receive loop forwards it to the application event channel
like every decoded message, refuting the no-observable-effect part of the claim at a
concrete input. -/
theorem C7_counterexample :
    (recv_step "me" "al" [] ⟨"10.0.0.2", 60000⟩ (NetworkMessage.Block "x") 0).forwarded =
      [NetworkMessage.Block "x"] ∧
    (recv_step "me" "al" [] ⟨"10.0.0.2", 60000⟩ (NetworkMessage.Block "x") 0).forwarded ≠
      ([] : List NetworkMessage) := by
  decide

/-- C7 amended: processing a legacy `Block` datagram performs no registry upsert for
any sender and sends no reply datagram and attempts no TCP connect; but, like every
decoded message, it is forwarded to the application event channel, and the routine
stale sweep still runs on the registry. -/
theorem C7_legacy_block_otherwise_ignored (myId myAlias block_json : String) (peers : PeerMap)
    (src : SocketAddr) (now : Int) :
    recv_step myId myAlias peers src (NetworkMessage.Block block_json) now =
      { peers := maybe_gc_stale peers now, sent := [],
        forwarded := [NetworkMessage.Block block_json], connects := [] } := rfl

/-- C8: the `TcpConnectionResponse` answering an upgrade request always advertises
the constant port 60000 + TCP_PORT_OFFSET = 61000, whatever the node configuration;
for a node configured on any UDP port other than 60000 this differs from the actual
TCP listener port computed by `NetworkNode::new`. -/
theorem C8_upgrade_response_port_constant (myId myAlias fromId from_alias : String)
    (reqPort : Nat) (peers : PeerMap) (src : SocketAddr) (now : Int) (port : Nat) :
    (recv_step myId myAlias peers src
        (NetworkMessage.TcpConnectionRequest fromId from_alias reqPort) now).sent =
      [(NetworkMessage.TcpConnectionResponse myId fromId true (60000 + TCP_PORT_OFFSET), src)] ∧
    60000 + TCP_PORT_OFFSET = 61000 ∧
    (port ≠ 60000 → node_tcp_port port ≠ 61000) := by
  refine ⟨rfl, rfl, ?_⟩
  intro h
  unfold node_tcp_port TCP_PORT_OFFSET
  omega

/-- C8 witness: a node configured on UDP port 49000 answers with 61000 although its
own TCP listener is on 50000. -/
theorem C8_witness :
    node_tcp_port 49000 ≠ 61000 ∧
    (recv_step "me" "al" [] ⟨"10.0.0.2", 60000⟩
        (NetworkMessage.TcpConnectionRequest "f" "fa" 123) 0).sent =
      [(NetworkMessage.TcpConnectionResponse "me" "f" true (60000 + TCP_PORT_OFFSET),
        ⟨"10.0.0.2", 60000⟩)] :=
  ⟨(C8_upgrade_response_port_constant "me" "al" "f" "fa" 123 [] ⟨"10.0.0.2", 60000⟩ 0 49000).2.2
      (by decide),
   (C8_upgrade_response_port_constant "me" "al" "f" "fa" 123 [] ⟨"10.0.0.2", 60000⟩ 0 49000).1⟩

/-- C9: for every received message that carries an id but no pubkey field - `Ping`,
`Pong`, `DirectBlock`, `TcpKeepalive`, `TcpConnectionTest`,
`TcpConnectionTestResponse` - the dispatch upserts the registry row with the id
string as pubkey (and for `DirectBlock` and `TcpKeepalive` also as aliasName),
overwriting whatever the row held before, including a genuine pubkey from a `Peer`
announcement, since the registry argument is universally quantified. -/
theorem C9_id_string_overwrites_pubkey (myId myAlias id aliasName fromId toId payload : String)
    (ts rt : Nat) (peers : PeerMap) (src : SocketAddr) (now : Int) :
    peer_pubkey ((recv_step myId myAlias peers src
        (NetworkMessage.Ping id aliasName) now).peers) id = some id ∧
    peer_pubkey ((recv_step myId myAlias peers src
        (NetworkMessage.Pong id aliasName) now).peers) id = some id ∧
    (peer_pubkey ((recv_step myId myAlias peers src
        (NetworkMessage.DirectBlock fromId toId payload) now).peers) fromId = some fromId ∧
     peer_alias ((recv_step myId myAlias peers src
        (NetworkMessage.DirectBlock fromId toId payload) now).peers) fromId = some fromId) ∧
    (peer_pubkey ((recv_step myId myAlias peers src
        (NetworkMessage.TcpKeepalive fromId) now).peers) fromId = some fromId ∧
     peer_alias ((recv_step myId myAlias peers src
        (NetworkMessage.TcpKeepalive fromId) now).peers) fromId = some fromId) ∧
    peer_pubkey ((recv_step myId myAlias peers src
        (NetworkMessage.TcpConnectionTest fromId ts) now).peers) fromId = some fromId ∧
    peer_pubkey ((recv_step myId myAlias peers src
        (NetworkMessage.TcpConnectionTestResponse fromId toId ts rt) now).peers) fromId =
      some fromId :=
  ⟨peer_pubkey_upsert peers id aliasName id src none now,
   peer_pubkey_upsert peers id aliasName id src none now,
   ⟨peer_pubkey_upsert peers fromId fromId fromId src none now,
    peer_alias_upsert peers fromId fromId fromId src none now⟩,
   ⟨peer_pubkey_upsert peers fromId fromId fromId src none now,
    peer_alias_upsert peers fromId fromId fromId src none now⟩,
   peer_pubkey_upsert peers fromId fromId fromId src none now,
   peer_pubkey_upsert peers fromId fromId fromId src none now⟩

/-- C10: in every reachable registry state, every `PeerInfo` returned by
`list_peers` has `last_seen_ms` equal to zero - the upsert writes zero for new and
existing rows and no operation ever assigns a non-zero value. -/
theorem C10_last_seen_ms_always_zero (m : PeerMap) (h : RegistryReachable m) :
    ∀ info ∈ list_peers m, info.last_seen_ms = 0 := by
  intro info hinfo
  obtain ⟨kv, hkv, heq⟩ := List.mem_map.mp hinfo
  rw [← show kv.2.info = info from heq]
  exact registry_last_seen_ms_zero m h kv hkv

/-- Concrete one-upsert registry for the C10 witness. -/
def registryW10 : PeerMap :=
  update_peer_with_tcp_port [] "p9" "a9" "k9" ⟨"10.0.0.3", 60000⟩ none 5

/-- C10 witness: the single row of a registry built by one upsert from empty reports
a zero `last_seen_ms`. -/
theorem C10_witness :
    (upsertEntry none "p9" "a9" "k9" ⟨"10.0.0.3", 60000⟩ none 5).info.last_seen_ms = 0 :=
  C10_last_seen_ms_always_zero registryW10
    (RegistryReachable.upsert [] "p9" "a9" "k9" ⟨"10.0.0.3", 60000⟩ none 5
      RegistryReachable.empty)
    (upsertEntry none "p9" "a9" "k9" ⟨"10.0.0.3", 60000⟩ none 5).info (by decide)

end WiChain
